import Mathlib

set_option maxRecDepth 100000

/-!
Verification of the analytics-mcp-server OAuth proxy.

This file gives a shallow embedding, in Lean 4, of the parts of the
repository that the specification's claims talk about:

* `src/docker/src/persistence.py` — the `InMemoryProvider` persistence
  backend (a dict plus a FIFO queue of `(expiry_time, key)` pairs).
* `src/docker/src/remote_auth.py` — PKCE validation (`validate_pkce`,
  including a full SHA-256 and base64url model), the `/token` endpoint
  (`token_exchange`) and the `/auth/callback` endpoint (`proxy_callback`).
* `src/docker/src/utils/security.py` — the declared-`Content-Length`
  check of `MaxBodySizeMiddleware`.
* `src/docker/src/auth/rate_limiter.py` — `InMemoryTokenBucket`
  (`allow`, `cleanup`), the Redis/Lua token-bucket script, and
  `get_client_ip`.

Conventions: Python floats and wall-clock instants are modelled exactly
over `ℚ` (rational idealisation of the real-valued arithmetic); machine
32-bit words are `Nat` reduced mod `2 ^ 32`; Python `None` becomes
`Option`; raising `HTTPException` becomes an explicit result
constructor.  Python dicts become association lists whose `set`
operation replaces any previous binding of the key.
-/

namespace AnalyticsMcp

/-! ## Python-dict association lists -/

/-- `d.get(key)`: first binding of `k`, if any. -/
def dictGet {α : Type} (l : List (String × α)) (k : String) : Option α :=
  match l with
  | [] => none
  | (k', v) :: t => if k' = k then some v else dictGet t k

/-- `d[key] = v`: replace any binding of `k` by `v`. -/
def dictSet {α : Type} (l : List (String × α)) (k : String) (v : α) :
    List (String × α) :=
  (k, v) :: l.filter (fun p => p.1 != k)

/-- `del d[key]` / `d.pop(key, None)`: drop the binding of `k`. -/
def dictDelete {α : Type} (l : List (String × α)) (k : String) :
    List (String × α) :=
  l.filter (fun p => p.1 != k)

theorem dictGet_dictSet_self {α : Type} (l : List (String × α)) (k : String) (v : α) :
    dictGet (dictSet l k v) k = some v := by
  simp [dictGet, dictSet]

theorem dictGet_filter_ne {α : Type} (l : List (String × α)) (k : String)
    (p : String × α → Bool) (hp : ∀ v, p (k, v) = true) :
    dictGet (l.filter p) k = dictGet l k := by
  induction l with
  | nil => rfl
  | cons hd t ih =>
    by_cases h : hd.1 = k
    · obtain ⟨k', v'⟩ := hd
      subst h
      simp [dictGet, List.filter_cons, hp v']
    · obtain ⟨k', v'⟩ := hd
      cases hpv : p (k', v') with
      | true => simpa [dictGet, List.filter_cons, hpv, h] using ih
      | false => simpa [dictGet, List.filter_cons, hpv, h] using ih

theorem dictGet_dictSet_ne {α : Type} (l : List (String × α)) (k k' : String)
    (v : α) (h : k' ≠ k) : dictGet (dictSet l k v) k' = dictGet l k' := by
  unfold dictSet
  have h2 : dictGet ((k, v) :: l.filter (fun p => p.1 != k)) k'
      = dictGet (l.filter (fun p => p.1 != k)) k' := by
    have hne : ¬ (k = k') := fun h' => h h'.symm
    simp [dictGet, hne]
  rw [h2, dictGet_filter_ne]
  intro v'
  simp [h]

theorem dictGet_dictDelete_self {α : Type} (l : List (String × α)) (k : String) :
    dictGet (dictDelete l k) k = none := by
  induction l with
  | nil => rfl
  | cons hd t ih =>
    by_cases h : hd.1 = k
    · simpa [dictDelete, List.filter_cons, h] using ih
    · simpa [dictDelete, dictGet, List.filter_cons, h] using ih

theorem dictGet_dictDelete_ne {α : Type} (l : List (String × α)) (k k' : String)
    (h : k' ≠ k) : dictGet (dictDelete l k) k' = dictGet l k' := by
  unfold dictDelete
  rw [dictGet_filter_ne]
  intro v'
  simp [h]

/-! ## `InMemoryProvider` (src/docker/src/persistence.py, lines 42–71)

The backend keeps `_data : dict[str, str]` and `_expiry_queue`, a FIFO
`deque` of `(expiry_time, key)` pairs appended on `set`.  `get` reads the
dict directly — it performs no expiry check.  `cleanup_expired` pops the
queue while the head is expired and deletes those keys. -/

structure InMemoryProvider (α : Type) where
  data : List (String × α)
  expiryQueue : List (ℚ × String)

/-- The freshly constructed provider (empty dict, empty queue). -/
def InMemoryProvider.empty (α : Type) : InMemoryProvider α := ⟨[], []⟩

/-- `set(key, value, ttl_in_sec)` at wall-clock time `now`.  The queue
entry is appended only when `ttl_in_sec` is truthy (not `None`, not 0). -/
def InMemoryProvider.set {α : Type} (p : InMemoryProvider α) (now : ℚ)
    (key : String) (value : α) (ttl : Option ℤ) : InMemoryProvider α :=
  { data := dictSet p.data key value
    expiryQueue :=
      match ttl with
      | some t => if t ≠ 0 then p.expiryQueue ++ [(now + (t : ℚ), key)] else p.expiryQueue
      | none => p.expiryQueue }

/-- `get(key)`: a plain dict read — no expiry check whatsoever. -/
def InMemoryProvider.get {α : Type} (p : InMemoryProvider α) (key : String) :
    Option α :=
  dictGet p.data key

/-- `delete(key)`. -/
def InMemoryProvider.delete {α : Type} (p : InMemoryProvider α) (key : String) :
    InMemoryProvider α :=
  { p with data := dictDelete p.data key }

/-- The loop of `cleanup_expired`: while the queue head has
`expiry_time <= now`, pop it and delete the key (counting only keys that
were still present). -/
def cleanupLoop {α : Type} (now : ℚ) :
    List (ℚ × String) → List (String × α) → ℕ → ℕ × List (String × α) × List (ℚ × String)
  | [], data, c => (c, data, [])
  | (e, k) :: rest, data, c =>
    if e ≤ now then
      if (dictGet data k).isSome then
        cleanupLoop now rest (dictDelete data k) (c + 1)
      else
        cleanupLoop now rest data c
    else
      (c, data, (e, k) :: rest)

/-- `cleanup_expired()` at time `now`: returns the count of deleted items
and the updated provider. -/
def InMemoryProvider.cleanupExpired {α : Type} (p : InMemoryProvider α) (now : ℚ) :
    ℕ × InMemoryProvider α :=
  let r := cleanupLoop now p.expiryQueue p.data 0
  (r.1, ⟨r.2.1, r.2.2⟩)

/-! ## SHA-256 and base64url (models of `hashlib.sha256` and
`base64.urlsafe_b64encode(...).rstrip(b"=")` used by
`src/docker/src/remote_auth.py`, lines 858–889)

Bytes are `ℕ` below 256; 32-bit words are `ℕ` reduced mod `2 ^ 32`. -/

/-- Truncate to a 32-bit word. -/
def u32 (n : ℕ) : ℕ := n % 4294967296

/-- 32-bit right rotation. -/
def rotr32 (n x : ℕ) : ℕ := u32 ((x >>> n) ||| (x <<< (32 - n)))

def shaCh (x y z : ℕ) : ℕ := (x &&& y) ^^^ ((x ^^^ 4294967295) &&& z)

def shaMaj (x y z : ℕ) : ℕ := (x &&& y) ^^^ (x &&& z) ^^^ (y &&& z)

def shaS0 (x : ℕ) : ℕ := rotr32 2 x ^^^ rotr32 13 x ^^^ rotr32 22 x

def shaS1 (x : ℕ) : ℕ := rotr32 6 x ^^^ rotr32 11 x ^^^ rotr32 25 x

def shaG0 (x : ℕ) : ℕ := rotr32 7 x ^^^ rotr32 18 x ^^^ (x >>> 3)

def shaG1 (x : ℕ) : ℕ := rotr32 17 x ^^^ rotr32 19 x ^^^ (x >>> 10)

/-- The 64 SHA-256 round constants (FIPS 180-4), written in decimal. -/
def shaK : List ℕ :=
  [1116352408, 1899447441, 3049323471, 3921009573, 961987163,
   1508970993, 2453635748, 2870763221, 3624381080, 310598401,
   607225278, 1426881987, 1925078388, 2162078206, 2614888103,
   3248222580, 3835390401, 4022224774, 264347078, 604807628,
   770255983, 1249150122, 1555081692, 1996064986, 2554220882,
   2821834349, 2952996808, 3210313671, 3336571891, 3584528711,
   113926993, 338241895, 666307205, 773529912, 1294757372,
   1396182291, 1695183700, 1986661051, 2177026350, 2456956037,
   2730485921, 2820302411, 3259730800, 3345764771, 3516065817,
   3600352804, 4094571909, 275423344, 430227734, 506948616,
   659060556, 883997877, 958139571, 1322822218, 1537002063,
   1747873779, 1955562222, 2024104815, 2227730452, 2361852424,
   2428436474, 2756734187, 3204031479, 3329325298]

structure Sha256State where
  a : ℕ
  b : ℕ
  c : ℕ
  d : ℕ
  e : ℕ
  f : ℕ
  g : ℕ
  hh : ℕ

def shaInit : Sha256State :=
  ⟨1779033703, 3144134277, 1013904242, 2773480762,
   1359893119, 2600822924, 528734635, 1541459225⟩

/-- One round of the SHA-256 compression function. -/
def shaCompressStep (s : Sha256State) (kw : ℕ × ℕ) : Sha256State :=
  let t1 := u32 (s.hh + shaS1 s.e + shaCh s.e s.f s.g + kw.1 + kw.2)
  let t2 := u32 (shaS0 s.a + shaMaj s.a s.b s.c)
  ⟨u32 (t1 + t2), s.a, s.b, s.c, u32 (s.d + t1), s.e, s.f, s.g⟩

/-- Big-endian decoding of the 16 message words of one 64-byte block. -/
def wordsOfBlock (block : List ℕ) : List ℕ :=
  (List.range 16).map (fun i =>
    block.getD (4 * i) 0 * 16777216 + block.getD (4 * i + 1) 0 * 65536 +
    block.getD (4 * i + 2) 0 * 256 + block.getD (4 * i + 3) 0)

/-- Extend 16 message words to the 64-entry schedule. -/
def extendSchedule (ws : List ℕ) : List ℕ :=
  (List.range 48).foldl
    (fun acc _ =>
      let n := acc.length
      acc ++ [u32 (shaG1 (acc.getD (n - 2) 0) + acc.getD (n - 7) 0 +
        shaG0 (acc.getD (n - 15) 0) + acc.getD (n - 16) 0)])
    ws

/-- Compress one 64-byte block into the running hash state. -/
def shaCompressBlock (hst : Sha256State) (block : List ℕ) : Sha256State :=
  let s := (shaK.zip (extendSchedule (wordsOfBlock block))).foldl shaCompressStep hst
  ⟨u32 (hst.a + s.a), u32 (hst.b + s.b), u32 (hst.c + s.c), u32 (hst.d + s.d),
   u32 (hst.e + s.e), u32 (hst.f + s.f), u32 (hst.g + s.g), u32 (hst.hh + s.hh)⟩

/-- Big-endian bytes of a 64-bit length. -/
def be64 (n : ℕ) : List ℕ :=
  [(n >>> 56) % 256, (n >>> 48) % 256, (n >>> 40) % 256, (n >>> 32) % 256,
   (n >>> 24) % 256, (n >>> 16) % 256, (n >>> 8) % 256, n % 256]

/-- Big-endian bytes of a 32-bit word. -/
def be32 (w : ℕ) : List ℕ := [(w >>> 24) % 256, (w >>> 16) % 256, (w >>> 8) % 256, w % 256]

/-- SHA-256 padding: `0x80`, zeros to 56 mod 64, then the 64-bit bit length. -/
def shaPad (msg : List ℕ) : List ℕ :=
  msg ++ [128] ++ List.replicate ((119 - msg.length % 64) % 64) 0 ++ be64 (8 * msg.length)

/-- Split a byte list into 64-byte blocks (structural recursion on a
fuel bound so that the kernel can evaluate it; `l.length` steps always
suffice since each step consumes 64 > 0 bytes). -/
def chunk64Fuel : ℕ → List ℕ → List (List ℕ)
  | 0, _ => []
  | fuel + 1, l => if l = [] then [] else l.take 64 :: chunk64Fuel fuel (l.drop 64)

/-- Split a byte list into 64-byte blocks. -/
def chunk64 (l : List ℕ) : List (List ℕ) := chunk64Fuel l.length l

/-- SHA-256 of a byte string, as 32 bytes. -/
def sha256 (msg : List ℕ) : List ℕ :=
  let s := (chunk64 (shaPad msg)).foldl shaCompressBlock shaInit
  be32 s.a ++ be32 s.b ++ be32 s.c ++ be32 s.d ++ be32 s.e ++ be32 s.f ++
    be32 s.g ++ be32 s.hh

/-- The URL-safe base64 alphabet (`A–Z a–z 0–9 - _`). -/
def b64UrlChar (n : ℕ) : Char :=
  if n < 26 then Char.ofNat (65 + n)
  else if n < 52 then Char.ofNat (97 + (n - 26))
  else if n < 62 then Char.ofNat (48 + (n - 52))
  else if n = 62 then '-'
  else '_'

/-- URL-safe base64 without `=` padding, on a byte list. -/
def b64UrlEncodeChars : List ℕ → List Char
  | [] => []
  | [a] => [b64UrlChar (a >>> 2), b64UrlChar ((a % 4) <<< 4)]
  | [a, b] =>
    [b64UrlChar (a >>> 2), b64UrlChar (((a % 4) <<< 4) + (b >>> 4)),
     b64UrlChar ((b % 16) <<< 2)]
  | a :: b :: c :: rest =>
    b64UrlChar (a >>> 2) :: b64UrlChar (((a % 4) <<< 4) + (b >>> 4)) ::
    b64UrlChar (((b % 16) <<< 2) + (c >>> 6)) :: b64UrlChar (c % 64) ::
    b64UrlEncodeChars rest

/-- `_base64url_no_pad` (remote_auth.py, line 860). -/
def base64urlNoPad (bytes : List ℕ) : String := String.mk (b64UrlEncodeChars bytes)

/-! ## PKCE validation (`validate_pkce`, remote_auth.py lines 858–889) -/

/-- One character of the PKCE verifier alphabet `[A-Za-z0-9\-._~]`. -/
def isPkceChar (c : Char) : Bool :=
  ('A' ≤ c && c ≤ 'Z') || ('a' ≤ c && c ≤ 'z') || ('0' ≤ c && c ≤ '9') ||
  c == '-' || c == '.' || c == '_' || c == '~'

/-- `_PKCE_VERIFIER_RE.match`: 43–128 characters of the PKCE alphabet. -/
def pkceVerifierMatches (s : String) : Bool :=
  decide (43 ≤ s.length) && decide (s.length ≤ 128) && s.data.all isPkceChar

/-- ASCII bytes of a verifier (`code_verifier.encode("ascii")`; the regex
check has already restricted the characters to ASCII). -/
def strBytes (s : String) : List ℕ := s.data.map Char.toNat

/-- Python `str.upper()` (ASCII; the only method values compared are
`"S256"`/`"PLAIN"`/`"plain"`, all ASCII). -/
def pyUpper (s : String) : String := String.mk (s.data.map Char.toUpper)

/-- Python truthiness of an optional string: `None` and `""` are falsy. -/
def pyTruthy (o : Option String) : Bool :=
  match o with
  | none => false
  | some s => s.length != 0

/-- Outcome of `validate_pkce`: fall through normally, or raise
`HTTPException(400, "invalid_request")` / `HTTPException(400, "invalid_grant")`. -/
inductive PkceResult
  | ok
  | invalidRequest
  | invalidGrant
deriving DecidableEq

/-- `validate_pkce(code_verifier, code_challenge, method)`. -/
def validate_pkce (code_verifier code_challenge method : Option String) :
    PkceResult :=
  if !pyTruthy code_challenge then .invalidRequest
  else if !pyTruthy code_verifier then .invalidRequest
  else
    let v := code_verifier.getD ""
    if !pkceVerifierMatches v then .invalidRequest
    else
      let m := pyUpper (if pyTruthy method then method.getD "" else "plain")
      if m = "S256" then
        if base64urlNoPad (sha256 (strBytes v)) = code_challenge.getD "" then .ok
        else .invalidGrant
      else if m = "PLAIN" then
        if v = code_challenge.getD "" then .ok else .invalidGrant
      else .invalidRequest

/-! ## OAuth proxy data model (remote_auth.py, lines 80–138)

`datetime` instants are modelled as `ℚ` (seconds); `ensure_aware_utc` is
the identity under this model, so `ensure_aware_utc(dt) < now` is
`dt < now`. -/

/-- `DynamicClientRegistrationRequest` (the stored client record). -/
structure DynClient where
  redirect_uris : Option (List String)
  client_name : Option String
  scope : Option String
  grant_types : Option (List String)
  response_types : Option (List String)
  secret : Option String

/-- `AuthorizationTransaction`. -/
structure AuthorizationTransaction where
  created_at : ℚ
  expires_at : ℚ
  client_id : String
  redirect_uri : String
  scope : String
  state : Option String
  code_challenge : Option String
  code_challenge_method : Option String

/-- `AuthorizationCode`. -/
structure AuthorizationCode where
  created_at : ℚ
  expires_at : ℚ
  transaction_id : String
  client_id : String
  redirect_uri : String
  code_challenge : Option String
  code_challenge_method : Option String
  upstream_location : Option String
  upstream_code : String

def AUTH_TRANSACTION_TTL_SECONDS : ℤ := 120

def AUTH_CODE_TTL_SECONDS : ℤ := 120

/-! ## `/auth/callback` (`proxy_callback`, remote_auth.py lines 653–734) -/

/-- Outcome of `proxy_callback`: an `HTTPException`, or the 302 redirect
to the client's `redirect_uri` carrying the freshly minted proxy code and
the client's original `state`. -/
inductive CallbackOutcome
  | httpError (status : ℕ) (detail : String)
  | redirect (redirectUri newAuthCode : String) (clientState : Option String)
deriving DecidableEq

/-- `proxy_callback(code, state, location)` at time `now`.
`newAuthCode` stands for the fresh `secrets.token_urlsafe(32)` value.
Returns the outcome together with the transaction store and the code
store as they are when the redirect (or error) is returned. -/
def proxy_callback (txns : InMemoryProvider AuthorizationTransaction)
    (codes : InMemoryProvider AuthorizationCode)
    (code state : String) (location : Option String) (now : ℚ)
    (newAuthCode : String) :
    CallbackOutcome × InMemoryProvider AuthorizationTransaction ×
      InMemoryProvider AuthorizationCode :=
  match txns.get state with
  | none => (.httpError 400 "invalid_state_or_transaction_expired", txns, codes)
  | some txn =>
    if txn.expires_at < now then
      (.httpError 400 "transaction_expired", txns.delete state, codes)
    else
      (.redirect txn.redirect_uri newAuthCode txn.state, txns,
        codes.set now newAuthCode
          { created_at := now
            expires_at := now + (AUTH_CODE_TTL_SECONDS : ℚ)
            transaction_id := state
            client_id := txn.client_id
            redirect_uri := txn.redirect_uri
            code_challenge := txn.code_challenge
            code_challenge_method := txn.code_challenge_method
            upstream_location := location
            upstream_code := code }
          (some AUTH_CODE_TTL_SECONDS))

/-! ## `/token` (`token_exchange`, remote_auth.py lines 776–855) -/

/-- Outcome of `token_exchange` up to the upstream call:
`invalidClient` is the early 401 JSON response; `httpError` an
`HTTPException` raised by the handler; `upstreamCall payload` means
control reaches `upstream_token_exchange(payload)` (whose network result
then yields 200 or 502). -/
inductive TokenOutcome
  | invalidClient
  | httpError (status : ℕ) (detail : String)
  | upstreamCall (payload : List (String × String))
deriving DecidableEq

/-- `token_exchange(...)` at time `now`.  Returns the outcome and the
authorization-code store as it is at the moment the outcome is reached —
in particular, for `upstreamCall` this is the store state at the moment
`upstream_token_exchange` is invoked (the `auth_codes_store.delete(code)`
on line 836 precedes the upstream call on line 850). -/
def token_exchange (clients : InMemoryProvider DynClient)
    (codes : InMemoryProvider AuthorizationCode)
    (grant_type : String) (code : Option String)
    (client_id client_secret : String)
    (refresh_token code_verifier : Option String) (now : ℚ) :
    TokenOutcome × InMemoryProvider AuthorizationCode :=
  match clients.get client_id with
  | none => (.invalidClient, codes)
  | some client_data =>
    if client_data.secret ≠ some client_secret then (.invalidClient, codes)
    else if grant_type = "authorization_code" then
      if !pyTruthy code then (.httpError 400 "code_required", codes)
      else
        let c := code.getD ""
        match codes.get c with
        | none => (.httpError 400 "invalid_grant", codes)
        | some auth_code_data =>
          if auth_code_data.client_id ≠ client_id then
            (.httpError 400 "invalid_grant", codes)
          else if auth_code_data.expires_at < now then
            (.httpError 400 "invalid_grant", codes.delete c)
          else
            match validate_pkce code_verifier auth_code_data.code_challenge
                auth_code_data.code_challenge_method with
            | .invalidRequest => (.httpError 400 "invalid_request", codes)
            | .invalidGrant => (.httpError 400 "invalid_grant", codes)
            | .ok =>
              (.upstreamCall
                [("grant_type", grant_type), ("code", auth_code_data.upstream_code)],
                codes.delete c)
    else if grant_type = "refresh_token" then
      if !pyTruthy refresh_token then (.httpError 400 "refresh_token_required", codes)
      else (.upstreamCall
        [("grant_type", grant_type), ("refresh_token", refresh_token.getD "")], codes)
    else (.httpError 400 "unsupported_grant_type", codes)

/-! ## Body-size guard (`MaxBodySizeMiddleware.__call__`,
src/docker/src/utils/security.py lines 38–104)

We model the declared-`Content-Length` check (lines 76–84): if the header
is present, `int(content_length)` is attempted; on success the request is
rejected with 413 when the value exceeds `max_body_size`, otherwise it
passes through to the streaming phase; a `ValueError` yields 400. -/

/-- Python whitespace characters stripped by `int(str)` / `str.strip()`
(ASCII subset). -/
def isPyWs (c : Char) : Bool :=
  c == ' ' || c == '\t' || c == '\n' || c == '\r' ||
  c == Char.ofNat 11 || c == Char.ofNat 12

def pyStrip (cs : List Char) : List Char :=
  ((cs.dropWhile isPyWs).reverse.dropWhile isPyWs).reverse

/-- Digit run of `int(str)`: digits with single underscores allowed
between digits (never leading, trailing, or doubled). -/
def pyDigitsVal : List Char → ℕ → Option ℕ
  | [], acc => some acc
  | c :: rest, acc =>
    if c.isDigit then pyDigitsVal rest (acc * 10 + (c.toNat - 48))
    else if c == '_' then
      match rest with
      | [] => none
      | d :: rest2 =>
        if d.isDigit then pyDigitsVal rest2 (acc * 10 + (d.toNat - 48)) else none
    else none

def pyDigits (cs : List Char) : Option ℕ :=
  match cs with
  | [] => none
  | c :: _ => if c.isDigit then pyDigitsVal cs 0 else none

/-- `int(s)` for a decimal string: strip whitespace, optional sign,
digit run.  `none` models the `ValueError`. -/
def pythonInt (s : String) : Option ℤ :=
  match pyStrip s.data with
  | '+' :: rest => (pyDigits rest).map (fun n => (n : ℤ))
  | '-' :: rest => (pyDigits rest).map (fun n => -(n : ℤ))
  | rest => (pyDigits rest).map (fun n => (n : ℤ))

/-- Decision taken on the declared `Content-Length` before any body read. -/
inductive BodyCheck
  | pass
  | reject (status : ℕ) (detail : String)
deriving DecidableEq

/-- The `Content-Length` gate of `MaxBodySizeMiddleware.__call__`. -/
def maxBodyCheck (contentLength : Option String) (maxBodySize : ℤ) : BodyCheck :=
  match contentLength with
  | none => .pass
  | some s =>
    match pythonInt s with
    | some n => if n > maxBodySize then .reject 413 "Content-Length too large" else .pass
    | none => .reject 400 "Invalid Content-Length"

/-! ## Client-IP extraction (`get_client_ip`,
src/docker/src/auth/rate_limiter.py lines 211–273)

IPv4 addresses are modelled as `ℕ` below `2 ^ 32`; `ip_address` /
`ip_network` parsing (dotted quad, optional `/prefix`, strict host bits)
follows Python's `ipaddress` module for IPv4, and a parse failure models
the `ValueError` caught inside `_is_trusted_proxy`. -/

/-- Split a character list on a separator (Python `str.split(sep)`). -/
def splitOnChar (sep : Char) : List Char → List (List Char)
  | [] => [[]]
  | c :: rest =>
    let r := splitOnChar sep rest
    if c = sep then [] :: r
    else
      match r with
      | [] => [[c]]
      | hd :: t => (c :: hd) :: t

/-- One dotted-quad octet: 1–3 digits, ≤ 255, no leading zero. -/
def parseOctet (cs : List Char) : Option ℕ :=
  if cs.isEmpty then none
  else if !cs.all Char.isDigit then none
  else if 3 < cs.length then none
  else if cs.head? == some '0' && cs.length != 1 then none
  else
    let v := cs.foldl (fun a c => a * 10 + (c.toNat - 48)) 0
    if v ≤ 255 then some v else none

def parseIPv4Chars (cs : List Char) : Option ℕ :=
  match splitOnChar '.' cs with
  | [a, b, c, d] =>
    match parseOctet a, parseOctet b, parseOctet c, parseOctet d with
    | some w, some x, some y, some z => some (((w * 256 + x) * 256 + y) * 256 + z)
    | _, _, _, _ => none
  | _ => none

/-- `ip_address(s)` (IPv4). -/
def parseIPv4 (s : String) : Option ℕ := parseIPv4Chars s.data

def parsePrefixLen (cs : List Char) : Option ℕ :=
  if cs.isEmpty then none
  else if !cs.all Char.isDigit then none
  else
    let v := cs.foldl (fun a c => a * 10 + (c.toNat - 48)) 0
    if v ≤ 32 then some v else none

/-- `ip_network(s)` (IPv4, strict): base address and prefix length; host
bits must be zero. -/
def parseCidr (s : String) : Option (ℕ × ℕ) :=
  match splitOnChar '/' s.data with
  | [a] => (parseIPv4Chars a).map (fun ip => (ip, 32))
  | [a, p] =>
    match parseIPv4Chars a, parsePrefixLen p with
    | some ip, some pl => if ip % 2 ^ (32 - pl) = 0 then some (ip, pl) else none
    | _, _ => none
  | _ => none

/-- `addr in ip_network(net)`. -/
def ipInNetwork (addr : ℕ) (net : ℕ × ℕ) : Bool :=
  addr >>> (32 - net.2) == net.1 >>> (32 - net.2)

/-- The loop of `_is_trusted_proxy`: the `try` wraps the whole loop, so
an unparsable CIDR aborts the remaining iterations with `False`. -/
def trustedLoop (addr : ℕ) : List String → Bool
  | [] => false
  | net :: rest =>
    match parseCidr net with
    | none => false
    | some nw => if ipInNetwork addr nw then true else trustedLoop addr rest

/-- `_is_trusted_proxy(ip)` under configuration `trustedList`
(`Settings.TRUSTED_PROXY_LIST`). -/
def isTrustedProxy (trustedList : List String) (ip : String) : Bool :=
  match parseIPv4 ip with
  | none => false
  | some addr => trustedLoop addr trustedList

/-- `ip.strip()` for X-Forwarded-For entries. -/
def pyStripStr (s : String) : String := String.mk (pyStrip s.data)

/-- `get_client_ip(request)` with the configuration (`BEHIND_PROXY`,
`TRUSTED_PROXY_LIST`), the socket peer (`request.client.host`) and the
two forwarded headers made explicit. -/
def get_client_ip (behindProxy : Bool) (trustedList : List String)
    (peer : Option String) (xff xRealIp : Option String) : Option String :=
  match peer with
  | none => none
  | some p =>
    if p.length = 0 then none
    else if !behindProxy then some p
    else if !isTrustedProxy trustedList p then some p
    else
      let fromXff : Option String :=
        if pyTruthy xff then
          let ips := (splitOnChar ',' (xff.getD "").data).map
            (fun cs => pyStripStr (String.mk cs))
          ips.reverse.find? (fun ip => !isTrustedProxy trustedList ip)
        else none
      match fromXff with
      | some ip => some ip
      | none => if pyTruthy xRealIp then some (xRealIp.getD "") else some p

/-! ## In-process token bucket (`InMemoryTokenBucket`,
src/docker/src/auth/rate_limiter.py lines 22–94) -/

/-- `_Bucket`. -/
structure TBBucket where
  tokens : ℚ
  lastRefill : ℚ
  lastAccess : ℚ
deriving DecidableEq

structure InMemoryTokenBucket where
  capacity : ℚ
  refillRate : ℚ
  entryTtl : ℚ
  buckets : List (String × TBBucket)

/-- `InMemoryTokenBucket(capacity, window_seconds, entry_ttl_seconds)`:
`refill_rate = capacity / window_seconds`. -/
def InMemoryTokenBucket.init (capacity window_seconds entry_ttl_seconds : ℚ) :
    InMemoryTokenBucket :=
  ⟨capacity, capacity / window_seconds, entry_ttl_seconds, []⟩

/-- The body of `allow` for the bucket of one key (the dict access is
factored out): returns the decision and the bucket value written back. -/
def memAllowSingle (cap rate ttl : ℚ) (st : Option TBBucket) (now : ℚ) :
    Bool × TBBucket :=
  match st with
  | none => (true, ⟨cap - 1, now, now⟩)
  | some b =>
    if ttl < now - b.lastAccess then (true, ⟨cap - 1, now, now⟩)
    else
      let b1 := if 0 < now - b.lastRefill then
          (⟨min cap (b.tokens + (now - b.lastRefill) * rate), now, b.lastAccess⟩ : TBBucket)
        else b
      if b1.tokens < 1 then (false, b1)
      else (true, ⟨b1.tokens - 1, b1.lastRefill, now⟩)

/-- `allow(key)` at monotonic time `now`. -/
def InMemoryTokenBucket.allow (L : InMemoryTokenBucket) (now : ℚ) (key : String) :
    Bool × InMemoryTokenBucket :=
  let r := memAllowSingle L.capacity L.refillRate L.entryTtl (dictGet L.buckets key) now
  (r.1, { L with buckets := dictSet L.buckets key r.2 })

/-- `cleanup()` at monotonic time `now`: collect the keys idle longer
than `entry_ttl_seconds`, delete them, return the count. -/
def InMemoryTokenBucket.cleanup (L : InMemoryTokenBucket) (now : ℚ) :
    ℕ × InMemoryTokenBucket :=
  let toDelete :=
    (L.buckets.filter (fun p => decide (L.entryTtl < now - p.2.lastAccess))).map Prod.fst
  (toDelete.length,
    { L with buckets := toDelete.foldl (fun bs k => dictDelete bs k) L.buckets })

/-- A sequence of `allow(key)` calls at the given times. -/
def runCalls : InMemoryTokenBucket → String → List ℚ → List Bool × InMemoryTokenBucket
  | L, _, [] => ([], L)
  | L, key, t :: ts =>
    let r := L.allow t key
    let rest := runCalls r.2 key ts
    (r.1 :: rest.1, rest.2)

/-! ## Redis/Lua token bucket (`TOKEN_BUCKET_SCRIPT` and
`RedisTokenBucketRateLimiter`, rate_limiter.py lines 97–172)

The script runs atomically; Redis key expiry (`PEXPIRE`) is modelled by
an absolute expiry instant checked on access.  Times are in
milliseconds; `RedisTokenBucketRateLimiter` passes
`refill_rate = capacity / (window_seconds * 1000)` tokens per ms. -/

structure RedisBucket where
  tokens : ℚ
  lastRefill : ℚ
deriving DecidableEq

structure RedisKeyState where
  bucket : RedisBucket
  expireAtMs : ℚ
deriving DecidableEq

/-- One evaluation of the Lua script with `ARGV = (capacity, refill_rate,
requested)` at server time `nowMs`, on the (possibly expired) stored key. -/
def redisAllowTokens (capacity window_seconds requested : ℚ)
    (st : Option RedisKeyState) (nowMs : ℚ) : Bool × RedisKeyState :=
  let refillRate := capacity / (window_seconds * 1000)
  let live : Option RedisBucket :=
    match st with
    | none => none
    | some ks => if ks.expireAtMs < nowMs then none else some ks.bucket
  let tokens :=
    match live with
    | none => capacity
    | some b => min capacity (b.tokens + (nowMs - b.lastRefill) * refillRate)
  let allowed := decide (requested ≤ tokens)
  let tokens2 := if allowed then tokens - requested else tokens
  (allowed, ⟨⟨tokens2, nowMs⟩, nowMs + ((⌈capacity / refillRate⌉ : ℤ) : ℚ)⟩)

/-- A sequence of `allow(key)` (i.e. `allow_tokens(key, 1)`) calls; the
instants are in seconds and reach the script as milliseconds. -/
def redisRun (capacity window_seconds : ℚ) :
    Option RedisKeyState → List ℚ → List Bool
  | _, [] => []
  | st, t :: ts =>
    let r := redisAllowTokens capacity window_seconds 1 st (1000 * t)
    r.1 :: redisRun capacity window_seconds (some r.2) ts

/-- Single-key form of a sequence of in-memory `allow` calls (used to
relate the keyed store to the Redis script, which is keyed externally). -/
def memRunSingle (cap rate ttl : ℚ) : Option TBBucket → List ℚ → List Bool
  | _, [] => []
  | st, t :: ts =>
    let r := memAllowSingle cap rate ttl st t
    r.1 :: memRunSingle cap rate ttl (some r.2) ts

/-- Simulation invariant between one in-memory bucket and the Redis key
state, `τ` being the instant of the most recent call. -/
def TBInv (cap wnd : ℚ) (b : TBBucket) (rs : RedisKeyState) (τ : ℚ) : Prop :=
  b.lastRefill = τ ∧
  rs.bucket.lastRefill = 1000 * τ ∧
  rs.expireAtMs = 1000 * τ + 1000 * wnd ∧
  rs.bucket.tokens = b.tokens ∧
  0 ≤ b.tokens ∧
  b.tokens ≤ cap ∧
  b.lastAccess ≤ τ ∧
  (τ - b.lastAccess) * (cap / wnd) ≤ b.tokens

/-! ## General-purpose lemmas -/

theorem string_length_ne_zero {s : String} (h : s ≠ "") : s.length ≠ 0 := by
  intro h0
  exact h (String.ext (List.length_eq_zero.mp h0))

theorem pyTruthy_of_ne_empty {s : String} (h : s ≠ "") : pyTruthy (some s) = true := by
  simp [pyTruthy, string_length_ne_zero h]

theorem b64UrlEncodeChars_cons_ne_nil (a : ℕ) (t : List ℕ) :
    b64UrlEncodeChars (a :: t) ≠ [] := by
  match t with
  | [] => simp [b64UrlEncodeChars]
  | [b] => simp [b64UrlEncodeChars]
  | b :: c :: rest => simp [b64UrlEncodeChars]

theorem sha256_length (m : List ℕ) : (sha256 m).length = 32 := by
  simp [sha256, be32]

theorem base64urlNoPad_sha256_ne_empty (m : List ℕ) :
    base64urlNoPad (sha256 m) ≠ "" := by
  intro h
  have h32 : (sha256 m).length = 32 := sha256_length m
  obtain ⟨a, t, hat⟩ : ∃ a t, sha256 m = a :: t := by
    cases hd : sha256 m with
    | nil => rw [hd] at h32; simp at h32
    | cons a t => exact ⟨a, t, rfl⟩
  have hne : b64UrlEncodeChars (sha256 m) ≠ [] := by
    rw [hat]; exact b64UrlEncodeChars_cons_ne_nil a t
  apply hne
  have : (base64urlNoPad (sha256 m)).data = ("" : String).data := by rw [h]
  simpa [base64urlNoPad] using this

theorem pkceVerifierMatches_ne_empty {v : String} (h : pkceVerifierMatches v = true) :
    v ≠ "" := by
  intro hv
  subst hv
  simp [pkceVerifierMatches] at h

/-! ## Claim C4 — in-memory store and expiry -/

/-- C4 (counterexample): `InMemoryProvider.get` takes no clock at all —
it is a plain dict read — so after `set(k, v, ttl = 1)` at time 0 the
value is still returned by every later `get`, in particular after the
ttl has elapsed and before the reaper has run.  The claim says such a
read returns none. -/
theorem inmemory_get_expired_cex :
    ((InMemoryProvider.empty String).set 0 "k" "v" (some 1)).get "k" = some "v" := by
  rfl

/-- C4 (amended): for the in-memory backend an entry written with a
positive ttl stays readable (even past its expiry) until
`cleanup_expired` runs; once `cleanup_expired` runs at or after the
expiry instant, the entry is removed (and counted) and `get` returns
none. -/
theorem inmemory_expiry_via_reaper :
    ∀ (t0 now : ℚ) (ttl : ℤ) (k v : String), 0 < ttl → t0 + (ttl : ℚ) ≤ now →
      ((InMemoryProvider.empty String).set t0 k v (some ttl)).get k = some v ∧
      (((InMemoryProvider.empty String).set t0 k v (some ttl)).cleanupExpired now).1 = 1 ∧
      ((((InMemoryProvider.empty String).set t0 k v (some ttl)).cleanupExpired now).2).get k =
        none := by
  intro t0 now ttl k v h1 h2
  have hne : ttl ≠ 0 := by omega
  refine ⟨?_, ?_, ?_⟩ <;>
    simp [InMemoryProvider.set, InMemoryProvider.get, InMemoryProvider.empty,
      InMemoryProvider.cleanupExpired, cleanupLoop, dictSet, dictGet, dictDelete,
      List.filter, hne, h2]

/-- Witness for `inmemoryExpiryViaReaper` at `t0 = 0`, `ttl = 1`,
`now = 2`. -/
theorem inmemory_expiry_via_reaper_witness :
    ((InMemoryProvider.empty String).set 0 "k" "v" (some 1)).get "k" = some "v" ∧
    (((InMemoryProvider.empty String).set 0 "k" "v" (some 1)).cleanupExpired 2).1 = 1 ∧
    ((((InMemoryProvider.empty String).set 0 "k" "v" (some 1)).cleanupExpired 2).2).get "k" =
      none :=
  inmemory_expiry_via_reaper 0 2 1 "k" "v" (by decide) (by norm_num)

/-! ## Claim C5 — declared Content-Length gate -/

/-- C5 (counterexample): a declared `Content-Length` exactly equal to the
configured limit (default 1 000 000) is **passed through**, because the
code checks `int(content_length) > self.max_body_size` strictly; the
claim says a declared length ≥ the limit is rejected with 413. -/
theorem content_length_at_limit_cex :
    maxBodyCheck (some "1000000") 1000000 = BodyCheck.pass := by
  decide

/-- C5 (amended): if `Content-Length` parses as an integer `n`, the
middleware rejects with 413 exactly when `n` is strictly greater than the
limit and passes the request through otherwise; a malformed
`Content-Length` is rejected with 400. -/
theorem content_length_gate :
    ∀ (s : String) (n limit : ℤ),
      (pythonInt s = some n →
        (limit < n →
          maxBodyCheck (some s) limit = BodyCheck.reject 413 "Content-Length too large") ∧
        (n ≤ limit → maxBodyCheck (some s) limit = BodyCheck.pass)) ∧
      (pythonInt s = none →
        maxBodyCheck (some s) limit = BodyCheck.reject 400 "Invalid Content-Length") := by
  intro s n limit
  constructor
  · intro hp
    constructor
    · intro hlt
      simp [maxBodyCheck, hp, hlt]
    · intro hle
      have hnl : ¬ limit < n := not_lt.mpr hle
      simp [maxBodyCheck, hp, hnl]
  · intro hp
    simp [maxBodyCheck, hp]

/-- Witness for `content_length_gate`: an over-limit declared length is
rejected with 413 and a malformed one with 400. -/
theorem content_length_gate_witness :
    maxBodyCheck (some "2000000") 1000000 =
      BodyCheck.reject 413 "Content-Length too large" ∧
    maxBodyCheck (some "abc") 1000000 =
      BodyCheck.reject 400 "Invalid Content-Length" :=
  ⟨((content_length_gate "2000000" 2000000 1000000).1 (by decide)).1 (by decide),
   (content_length_gate "abc" 0 1000000).2 (by decide)⟩

/-! ## Claim C9 — forwarded headers ignored for untrusted peers -/

/-- C9: with `BEHIND_PROXY = true` and a socket peer outside every
trusted CIDR, `get_client_ip` returns the socket peer, and two requests
differing only in their `X-Forwarded-For` / `X-Real-IP` values yield the
same result. -/
theorem untrusted_peer_ignores_headers :
    ∀ (trusted : List String) (p : String) (xff xri xff2 xri2 : Option String),
      isTrustedProxy trusted p = false → p ≠ "" →
      get_client_ip true trusted (some p) xff xri = some p ∧
      get_client_ip true trusted (some p) xff xri =
        get_client_ip true trusted (some p) xff2 xri2 := by
  intro trusted p xff xri xff2 xri2 htr hp
  have h1 : ∀ a b, get_client_ip true trusted (some p) a b = some p := by
    intro a b
    simp [get_client_ip, string_length_ne_zero hp, htr]
  exact ⟨h1 xff xri, by rw [h1, h1]⟩

/-- Witness for `untrusted_peer_ignores_headers`: peer `203.0.113.7`
outside the trusted CIDR `10.0.0.0/8`, with spoofed forwarded headers. -/
theorem untrusted_peer_ignores_headers_witness :
    get_client_ip true ["10.0.0.0/8"] (some "203.0.113.7")
        (some "1.2.3.4, 10.0.0.1") (some "9.9.9.9") = some "203.0.113.7" ∧
    get_client_ip true ["10.0.0.0/8"] (some "203.0.113.7")
        (some "1.2.3.4, 10.0.0.1") (some "9.9.9.9") =
      get_client_ip true ["10.0.0.0/8"] (some "203.0.113.7") none none :=
  untrusted_peer_ignores_headers ["10.0.0.0/8"] "203.0.113.7"
    (some "1.2.3.4, 10.0.0.1") (some "9.9.9.9") none none (by decide) (by decide)

/-! ## Claim C10 — PKCE is effectively mandatory -/

/-- C10: a stored authorization code whose `code_challenge` is absent can
never be redeemed: `/token` with `grant_type = authorization_code`,
valid client credentials, a matching unexpired code, and any
`code_verifier` (present or not) fails with 400 `invalid_request`. -/
theorem missing_challenge_rejects_token :
    ∀ (clients : InMemoryProvider DynClient) (codes : InMemoryProvider AuthorizationCode)
      (cid sec c : String) (cd : DynClient) (acd : AuthorizationCode)
      (rt cv : Option String) (now : ℚ),
      clients.get cid = some cd → cd.secret = some sec →
      c ≠ "" → codes.get c = some acd → acd.client_id = cid →
      ¬ acd.expires_at < now → acd.code_challenge = none →
      (token_exchange clients codes "authorization_code" (some c) cid sec rt cv now).1 =
        TokenOutcome.httpError 400 "invalid_request" := by
  intro clients codes cid sec c cd acd rt cv now hcl hsec hc hcode hcid hexp hch
  simp [token_exchange, hcl, hsec, pyTruthy_of_ne_empty hc, string_length_ne_zero hc,
    hcode, hcid, hexp, validate_pkce, hch, pyTruthy]

/-- Witness for `missing_challenge_rejects_token` on concrete stores. -/
theorem missing_challenge_rejects_token_witness :
    (token_exchange
      ((InMemoryProvider.empty DynClient).set 0 "CID"
        ⟨some ["https://c/cb"], none, none, none, none, some "SEC"⟩ (some 86400))
      ((InMemoryProvider.empty AuthorizationCode).set 0 "PC"
        ⟨0, 120, "T", "CID", "https://c/cb", none, none, none, "UC"⟩ (some 120))
      "authorization_code" (some "PC") "CID" "SEC" none (some "whatever") 0).1 =
      TokenOutcome.httpError 400 "invalid_request" :=
  missing_challenge_rejects_token _ _ "CID" "SEC" "PC"
    ⟨some ["https://c/cb"], none, none, none, none, some "SEC"⟩
    ⟨0, 120, "T", "CID", "https://c/cb", none, none, none, "UC"⟩
    none (some "whatever") 0 rfl rfl (by decide) rfl rfl (by norm_num) rfl

/-! ## Claim C3 — PKCE S256 round trip -/

/-- C3: for a verifier `V` accepted by the PKCE regex, storing
`code_challenge = base64url-no-pad(SHA-256(V))` with method `S256` and
presenting `V` succeeds; presenting any other well-formed verifier whose
computed challenge differs from the stored one fails with 400
`invalid_grant`. -/
theorem pkce_s256_verifier_roundtrip :
    ∀ v : String, pkceVerifierMatches v = true →
      validate_pkce (some v) (some (base64urlNoPad (sha256 (strBytes v)))) (some "S256") =
        PkceResult.ok ∧
      ∀ v2 : String, pkceVerifierMatches v2 = true →
        base64urlNoPad (sha256 (strBytes v2)) ≠ base64urlNoPad (sha256 (strBytes v)) →
        validate_pkce (some v2) (some (base64urlNoPad (sha256 (strBytes v)))) (some "S256") =
          PkceResult.invalidGrant := by
  intro v hv
  have hch : pyTruthy (some (base64urlNoPad (sha256 (strBytes v)))) = true :=
    pyTruthy_of_ne_empty (base64urlNoPad_sha256_ne_empty _)
  have hm : pyTruthy (some "S256") = true := by decide
  have hup : pyUpper "S256" = "S256" := by decide
  constructor
  · have hvt : pyTruthy (some v) = true :=
      pyTruthy_of_ne_empty (pkceVerifierMatches_ne_empty hv)
    simp [validate_pkce, hch, hvt, hv, hm, hup]
  · intro v2 hv2 hne
    have hvt2 : pyTruthy (some v2) = true :=
      pyTruthy_of_ne_empty (pkceVerifierMatches_ne_empty hv2)
    simp [validate_pkce, hch, hvt2, hv2, hm, hup, hne]

/-- Witness for `pkce_s256_verifier_roundtrip`: the 43-character verifier
`aaa…a` succeeds against its own challenge and the distinct well-formed
verifier `bbb…b` fails with `invalid_grant`. -/
theorem pkce_s256_verifier_roundtrip_witness :
    validate_pkce (some (String.mk (List.replicate 43 'a')))
      (some (base64urlNoPad (sha256 (strBytes (String.mk (List.replicate 43 'a'))))))
      (some "S256") = PkceResult.ok ∧
    validate_pkce (some (String.mk (List.replicate 43 'b')))
      (some (base64urlNoPad (sha256 (strBytes (String.mk (List.replicate 43 'a'))))))
      (some "S256") = PkceResult.invalidGrant := by
  have h := pkce_s256_verifier_roundtrip (String.mk (List.replicate 43 'a')) (by decide)
  exact ⟨h.1, h.2 (String.mk (List.replicate 43 'b')) (by decide) (by decide)⟩

/-! ## Claim C1 — authorization codes are single-use -/

/-- C1: whenever `/token` with `grant_type = authorization_code`
successfully consumes a code (i.e. control reaches the upstream token
exchange), the store passed to the upstream call no longer contains the
code, and every subsequent `/token` presenting the same code with valid
client credentials (any registered client) fails with 400
`invalid_grant`. -/
theorem token_code_single_use :
    ∀ (clients : InMemoryProvider DynClient)
      (codes codes2 : InMemoryProvider AuthorizationCode)
      (c cid sec : String) (rt cv : Option String) (now : ℚ)
      (payload : List (String × String)),
      token_exchange clients codes "authorization_code" (some c) cid sec rt cv now =
        (TokenOutcome.upstreamCall payload, codes2) →
      codes2.get c = none ∧
      ∀ (cid2 sec2 : String) (cd2 : DynClient) (rt2 cv2 : Option String) (now2 : ℚ),
        clients.get cid2 = some cd2 → cd2.secret = some sec2 →
        (token_exchange clients codes2 "authorization_code" (some c) cid2 sec2 rt2 cv2
            now2).1 =
          TokenOutcome.httpError 400 "invalid_grant" := by
  intro clients codes codes2 c cid sec rt cv now payload h
  unfold token_exchange at h
  cases hcl : clients.get cid with
  | none => rw [hcl] at h; simp at h
  | some client_data =>
    rw [hcl] at h
    simp only [] at h
    by_cases hsec : client_data.secret ≠ some sec
    · rw [if_pos hsec] at h; simp at h
    · rw [if_neg hsec] at h
      rw [if_pos trivial] at h
      by_cases hpy : (!pyTruthy (some c)) = true
      · rw [if_pos hpy] at h; simp at h
      · rw [if_neg hpy] at h
        have hpy2 : pyTruthy (some c) = true := by
          revert hpy; cases pyTruthy (some c) <;> simp
        simp only [Option.getD_some] at h
        cases hcode : codes.get c with
        | none => rw [hcode] at h; simp at h
        | some acd =>
          rw [hcode] at h
          simp only [] at h
          by_cases hcid : acd.client_id ≠ cid
          · rw [if_pos hcid] at h; simp at h
          · rw [if_neg hcid] at h
            by_cases hexp : acd.expires_at < now
            · rw [if_pos hexp] at h; simp at h
            · rw [if_neg hexp] at h
              cases hpk : validate_pkce cv acd.code_challenge acd.code_challenge_method with
              | invalidRequest => rw [hpk] at h; simp at h
              | invalidGrant => rw [hpk] at h; simp at h
              | ok =>
                rw [hpk] at h
                simp only [] at h
                have hc2 : codes2 = codes.delete c := by
                  have h2 := congrArg Prod.snd h
                  simpa using h2.symm
                have hnone : codes2.get c = none := by
                  rw [hc2]
                  simpa [InMemoryProvider.delete, InMemoryProvider.get] using
                    dictGet_dictDelete_self codes.data c
                refine ⟨hnone, ?_⟩
                intro cid2 sec2 cd2 rt2 cv2 now2 hcl2 hsec2
                simp [token_exchange, hcl2, hsec2, hpy2, hnone]

/-- Witness for `token_code_single_use`: a concrete successful exchange
(`plain` PKCE method so the hash is not involved) followed by the two
guarantees. -/
theorem token_code_single_use_witness :
    (token_exchange
        ((InMemoryProvider.empty DynClient).set 0 "CID"
          ⟨some ["https://c/cb"], none, none, none, none, some "SEC"⟩ (some 86400))
        ((InMemoryProvider.empty AuthorizationCode).set 0 "PC"
          ⟨0, 120, "T", "CID", "https://c/cb",
            some (String.mk (List.replicate 43 'a')), some "plain", none, "UC"⟩
          (some 120))
        "authorization_code" (some "PC") "CID" "SEC" none
        (some (String.mk (List.replicate 43 'a'))) 0).2.get "PC" = none ∧
    (token_exchange
        ((InMemoryProvider.empty DynClient).set 0 "CID"
          ⟨some ["https://c/cb"], none, none, none, none, some "SEC"⟩ (some 86400))
        ((token_exchange
          ((InMemoryProvider.empty DynClient).set 0 "CID"
            ⟨some ["https://c/cb"], none, none, none, none, some "SEC"⟩ (some 86400))
          ((InMemoryProvider.empty AuthorizationCode).set 0 "PC"
            ⟨0, 120, "T", "CID", "https://c/cb",
              some (String.mk (List.replicate 43 'a')), some "plain", none, "UC"⟩
            (some 120))
          "authorization_code" (some "PC") "CID" "SEC" none
          (some (String.mk (List.replicate 43 'a'))) 0).2)
        "authorization_code" (some "PC") "CID" "SEC" none
        (some (String.mk (List.replicate 43 'a'))) 5).1 =
      TokenOutcome.httpError 400 "invalid_grant" := by
  have hrun : token_exchange
      ((InMemoryProvider.empty DynClient).set 0 "CID"
        ⟨some ["https://c/cb"], none, none, none, none, some "SEC"⟩ (some 86400))
      ((InMemoryProvider.empty AuthorizationCode).set 0 "PC"
        ⟨0, 120, "T", "CID", "https://c/cb",
          some (String.mk (List.replicate 43 'a')), some "plain", none, "UC"⟩
        (some 120))
      "authorization_code" (some "PC") "CID" "SEC" none
      (some (String.mk (List.replicate 43 'a'))) 0 =
      (TokenOutcome.upstreamCall [("grant_type", "authorization_code"), ("code", "UC")],
        (((InMemoryProvider.empty AuthorizationCode).set 0 "PC"
          ⟨0, 120, "T", "CID", "https://c/cb",
            some (String.mk (List.replicate 43 'a')), some "plain", none, "UC"⟩
          (some 120)).delete "PC")) := by
    have hpkce : validate_pkce (some (String.mk (List.replicate 43 'a')))
        (some (String.mk (List.replicate 43 'a'))) (some "plain") = PkceResult.ok := by
      decide
    have hpt : pyTruthy (some "PC") = true := by decide
    norm_num [token_exchange, InMemoryProvider.set, InMemoryProvider.get,
      InMemoryProvider.empty, InMemoryProvider.delete, dictSet, dictGet, dictDelete,
      List.filter, hpkce, hpt]
  have h := token_code_single_use _ _ _ "PC" "CID" "SEC" none
    (some (String.mk (List.replicate 43 'a'))) 0
    [("grant_type", "authorization_code"), ("code", "UC")] hrun
  constructor
  · rw [hrun]
    exact h.1
  · rw [hrun]
    exact h.2 "CID" "SEC" ⟨some ["https://c/cb"], none, none, none, none, some "SEC"⟩
      none (some (String.mk (List.replicate 43 'a'))) 5 rfl rfl

/-! ## Claim C2 — the callback never consumes the transaction -/

/-- C2 (divergence witness): the spec says the transaction is consumed at
`/auth/callback`, but `proxy_callback` never deletes it on the success
path: after a successful callback (302 issued, proxy code stored) the
transaction is still readable under the same `state`, and a second
callback with the same `state` within the ttl succeeds again, minting a
second proxy code. -/
theorem callback_leaves_transaction_readable :
    (proxy_callback
        ((InMemoryProvider.empty AuthorizationTransaction).set 0 "T"
          ⟨0, 120, "C", "https://c/cb", "s", some "xyz", some "abc", some "S256"⟩
          (some 120))
        (InMemoryProvider.empty AuthorizationCode) "UC" "T" none 0 "P1").1 =
      CallbackOutcome.redirect "https://c/cb" "P1" (some "xyz") ∧
    ((proxy_callback
        ((InMemoryProvider.empty AuthorizationTransaction).set 0 "T"
          ⟨0, 120, "C", "https://c/cb", "s", some "xyz", some "abc", some "S256"⟩
          (some 120))
        (InMemoryProvider.empty AuthorizationCode) "UC" "T" none 0 "P1").2.1).get "T" =
      some ⟨0, 120, "C", "https://c/cb", "s", some "xyz", some "abc", some "S256"⟩ ∧
    (proxy_callback
        ((proxy_callback
          ((InMemoryProvider.empty AuthorizationTransaction).set 0 "T"
            ⟨0, 120, "C", "https://c/cb", "s", some "xyz", some "abc", some "S256"⟩
            (some 120))
          (InMemoryProvider.empty AuthorizationCode) "UC" "T" none 0 "P1").2.1)
        ((proxy_callback
          ((InMemoryProvider.empty AuthorizationTransaction).set 0 "T"
            ⟨0, 120, "C", "https://c/cb", "s", some "xyz", some "abc", some "S256"⟩
            (some 120))
          (InMemoryProvider.empty AuthorizationCode) "UC" "T" none 0 "P1").2.2)
        "UC" "T" none 1 "P2").1 =
      CallbackOutcome.redirect "https://c/cb" "P2" (some "xyz") := by
  norm_num [proxy_callback, InMemoryProvider.set, InMemoryProvider.get,
    InMemoryProvider.empty, dictSet, dictGet, List.filter, AUTH_CODE_TTL_SECONDS]

/-! ## Association-list lemmas for the rate-limiter proofs -/

theorem dictGet_foldl_dictDelete {α : Type} (ks : List String)
    (l : List (String × α)) (k : String) :
    dictGet (ks.foldl (fun bs k2 => dictDelete bs k2) l) k =
      if k ∈ ks then none else dictGet l k := by
  induction ks generalizing l with
  | nil => simp
  | cons k0 ks ih =>
    simp only [List.foldl_cons]
    rw [ih]
    by_cases hk : k ∈ ks
    · simp [hk]
    · by_cases hk0 : k = k0
      · subst hk0
        simp [hk, dictGet_dictDelete_self]
      · simp [hk, hk0, dictGet_dictDelete_ne l k0 k hk0]

theorem mem_of_dictGet_eq_some {α : Type} {l : List (String × α)} {k : String}
    {v : α} (h : dictGet l k = some v) : (k, v) ∈ l := by
  induction l with
  | nil => simp [dictGet] at h
  | cons hd t ih =>
    obtain ⟨k', v'⟩ := hd
    by_cases hk : k' = k
    · subst hk
      simp only [dictGet, if_pos] at h
      cases h
      exact List.mem_cons_self _ _
    · simp only [dictGet, if_neg hk] at h
      exact List.mem_cons_of_mem _ (ih h)

theorem dictGet_eq_some_of_mem {α : Type} {l : List (String × α)}
    (hnd : (l.map Prod.fst).Nodup) {k : String} {v : α} (h : (k, v) ∈ l) :
    dictGet l k = some v := by
  induction l with
  | nil => simp at h
  | cons hd t ih =>
    obtain ⟨k', v'⟩ := hd
    simp only [List.map_cons, List.nodup_cons] at hnd
    rcases List.mem_cons.mp h with h1 | h2
    · injection h1 with hk hv
      subst hk
      subst hv
      simp [dictGet]
    · have hk : k' ≠ k := by
        intro he
        subst he
        exact hnd.1 (List.mem_map_of_mem Prod.fst h2)
      simp only [dictGet, if_neg hk]
      exact ih hnd.2 h2

theorem mem_filter_map_fst_iff {α : Type} {l : List (String × α)}
    (hnd : (l.map Prod.fst).Nodup) (p : String × α → Bool) (k : String) :
    k ∈ (l.filter p).map Prod.fst ↔ ∃ v, dictGet l k = some v ∧ p (k, v) = true := by
  constructor
  · intro h
    obtain ⟨q, hq, hqk⟩ := List.mem_map.mp h
    obtain ⟨hql, hqp⟩ := List.mem_filter.mp hq
    obtain ⟨k1, v1⟩ := q
    cases hqk
    exact ⟨v1, dictGet_eq_some_of_mem hnd hql, hqp⟩
  · intro ⟨v, hv, hp⟩
    exact List.mem_map.mpr ⟨(k, v),
      List.mem_filter.mpr ⟨mem_of_dictGet_eq_some hv, hp⟩, rfl⟩

/-! ## Claim C6 — denied requests leave `last_access` alone; cleanup -/

theorem memAllowSingle_false {cap rate ttl : ℚ} {st : Option TBBucket} {now : ℚ}
    (h : (memAllowSingle cap rate ttl st now).1 = false) :
    ∃ b, st = some b ∧
      (memAllowSingle cap rate ttl st now).2.lastAccess = b.lastAccess := by
  match st with
  | none => simp [memAllowSingle] at h
  | some b =>
    refine ⟨b, rfl, ?_⟩
    unfold memAllowSingle at h ⊢
    by_cases h1 : ttl < now - b.lastAccess
    · simp [h1] at h
    · by_cases h2 : (0 : ℚ) < now - b.lastRefill
      · simp only [h1, if_false, h2, if_true] at h ⊢
        by_cases h3 : min cap (b.tokens + (now - b.lastRefill) * rate) < 1
        · simp [h3]
        · simp [h3] at h
      · simp only [h1, if_false, h2, if_true] at h ⊢
        by_cases h3 : b.tokens < 1
        · simp [h3]
        · simp [h3] at h

/-- C6: a denied `allow(key)` call leaves the key's `last_access`
unchanged (and does not touch any other key's bucket); `cleanup()`
removes exactly the keys whose `last_access` lies more than
`entry_ttl_seconds` in the past and returns their count. -/
theorem denied_allow_and_cleanup :
    ∀ (L : InMemoryTokenBucket) (now : ℚ) (key : String),
      ((L.allow now key).1 = false →
        Option.map TBBucket.lastAccess (dictGet (L.allow now key).2.buckets key) =
          Option.map TBBucket.lastAccess (dictGet L.buckets key) ∧
        ∀ k2, k2 ≠ key →
          dictGet (L.allow now key).2.buckets k2 = dictGet L.buckets k2) ∧
      ((L.buckets.map Prod.fst).Nodup →
        (L.cleanup now).1 =
          (L.buckets.filter
            (fun p => decide (L.entryTtl < now - p.2.lastAccess))).length ∧
        ∀ k2 b, dictGet (L.cleanup now).2.buckets k2 = some b ↔
          (dictGet L.buckets k2 = some b ∧ ¬ L.entryTtl < now - b.lastAccess)) := by
  intro L now key
  constructor
  · intro hfalse
    have hf : (memAllowSingle L.capacity L.refillRate L.entryTtl
        (dictGet L.buckets key) now).1 = false := hfalse
    obtain ⟨b, hb, hla⟩ := memAllowSingle_false hf
    constructor
    · simp only [InMemoryTokenBucket.allow]
      rw [dictGet_dictSet_self, hb]
      rw [hb] at hla
      simp [hla]
    · intro k2 hk2
      simp only [InMemoryTokenBucket.allow]
      exact dictGet_dictSet_ne _ _ _ _ hk2
  · intro hnd
    refine ⟨by simp [InMemoryTokenBucket.cleanup], ?_⟩
    intro k2 b
    simp only [InMemoryTokenBucket.cleanup]
    rw [dictGet_foldl_dictDelete]
    by_cases hmem : k2 ∈ (L.buckets.filter
        (fun p => decide (L.entryTtl < now - p.2.lastAccess))).map Prod.fst
    · rw [if_pos hmem]
      obtain ⟨v, hv, hp⟩ := (mem_filter_map_fst_iff hnd _ _).mp hmem
      constructor
      · intro h
        exact absurd h (by simp)
      · intro ⟨hg, hnp⟩
        rw [hv] at hg
        cases hg
        exact absurd (of_decide_eq_true hp) hnp
    · rw [if_neg hmem]
      constructor
      · intro hg
        refine ⟨hg, ?_⟩
        intro hlt
        exact hmem ((mem_filter_map_fst_iff hnd _ _).mpr
          ⟨b, hg, decide_eq_true hlt⟩)
      · intro ⟨hg, _⟩
        exact hg

/-- Witness for `denied_allow_and_cleanup` on a concrete limiter: key
`"k"` is denied at `t = 0` (bucket empty) and its `last_access` is
untouched; key `"j"` has been idle longer than the ttl and is removed by
`cleanup`, key `"k"` is kept. -/
theorem denied_allow_and_cleanup_witness :
    Option.map TBBucket.lastAccess
        (dictGet ((InMemoryTokenBucket.mk 1 (1 / 10) 3600
            [("k", ⟨0, 0, 0⟩), ("j", ⟨5, 0, -4000⟩)]).allow 0 "k").2.buckets "k") =
      Option.map TBBucket.lastAccess
        (dictGet [("k", (⟨0, 0, 0⟩ : TBBucket)), ("j", ⟨5, 0, -4000⟩)] "k") ∧
    dictGet ((InMemoryTokenBucket.mk 1 (1 / 10) 3600
        [("k", ⟨0, 0, 0⟩), ("j", ⟨5, 0, -4000⟩)]).allow 0 "k").2.buckets "j" =
      dictGet [("k", (⟨0, 0, 0⟩ : TBBucket)), ("j", ⟨5, 0, -4000⟩)] "j" ∧
    ((InMemoryTokenBucket.mk 1 (1 / 10) 3600
        [("k", ⟨0, 0, 0⟩), ("j", ⟨5, 0, -4000⟩)]).cleanup 0).1 = 1 ∧
    (dictGet ((InMemoryTokenBucket.mk 1 (1 / 10) 3600
          [("k", ⟨0, 0, 0⟩), ("j", ⟨5, 0, -4000⟩)]).cleanup 0).2.buckets "k" =
        some ⟨0, 0, 0⟩ ↔
      (dictGet [("k", (⟨0, 0, 0⟩ : TBBucket)), ("j", ⟨5, 0, -4000⟩)] "k" =
          some ⟨0, 0, 0⟩ ∧
        ¬ (3600 : ℚ) < 0 - (0 : ℚ))) := by
  have hfalse : ((InMemoryTokenBucket.mk 1 (1 / 10) 3600
      [("k", ⟨0, 0, 0⟩), ("j", ⟨5, 0, -4000⟩)]).allow 0 "k").1 = false := by
    norm_num [InMemoryTokenBucket.allow, memAllowSingle, dictGet]
  have hnd : (((InMemoryTokenBucket.mk 1 (1 / 10) 3600
      [("k", ⟨0, 0, 0⟩), ("j", ⟨5, 0, -4000⟩)]).buckets.map Prod.fst)).Nodup := by
    simp
  have h := denied_allow_and_cleanup
    (InMemoryTokenBucket.mk 1 (1 / 10) 3600
      [("k", ⟨0, 0, 0⟩), ("j", ⟨5, 0, -4000⟩)]) 0 "k"
  have hcount : ((InMemoryTokenBucket.mk 1 (1 / 10) 3600
      [("k", ⟨0, 0, 0⟩), ("j", ⟨5, 0, -4000⟩)]).cleanup 0).1 = 1 := by
    rw [(h.2 hnd).1]
    norm_num [List.filter]
  exact ⟨(h.1 hfalse).1, (h.1 hfalse).2 "j" (by decide), hcount,
    by rw [(h.2 hnd).2 "k" ⟨0, 0, 0⟩]⟩

/-! ## Claim C7 — burst admission and refill -/

theorem runCalls_decisions_single :
    ∀ (ts : List ℚ) (L : InMemoryTokenBucket) (key : String),
      (runCalls L key ts).1 =
        memRunSingle L.capacity L.refillRate L.entryTtl (dictGet L.buckets key) ts := by
  intro ts
  induction ts with
  | nil => intro L key; rfl
  | cons t ts ih =>
    intro L key
    simp only [runCalls, memRunSingle]
    refine congrArg₂ List.cons rfl ?_
    rw [ih]
    simp [InMemoryTokenBucket.allow, dictGet_dictSet_self]

theorem memAllowSingle_same_time (cap rate ttl q t : ℚ) (httl : 0 ≤ ttl) :
    memAllowSingle cap rate ttl (some ⟨q, t, t⟩) t =
      if q < 1 then (false, ⟨q, t, t⟩) else (true, ⟨q - 1, t, t⟩) := by
  have h1 : ¬ ttl < (0 : ℚ) := not_lt.mpr httl
  have h2 : ¬ (0 : ℚ) < 0 := lt_irrefl 0
  simp only [memAllowSingle, sub_self, h1, h2, if_false]

theorem memRunSingle_replicate (cap rate ttl t : ℚ) (httl : 0 ≤ ttl) :
    ∀ (m kk : ℕ),
      memRunSingle cap rate ttl (some ⟨(kk : ℚ), t, t⟩) (List.replicate m t) =
        List.replicate (min m kk) true ++ List.replicate (m - kk) false := by
  intro m
  induction m with
  | zero => intro kk; simp [memRunSingle]
  | succ m ih =>
    intro kk
    cases kk with
    | zero =>
      have hlt : ((0 : ℕ) : ℚ) < 1 := by norm_num
      rw [List.replicate_succ]
      simp only [memRunSingle]
      rw [memAllowSingle_same_time cap rate ttl _ t httl, if_pos hlt]
      dsimp only
      rw [ih 0]
      simp [List.replicate_succ]
    | succ kk2 =>
      have hge : ¬ ((kk2 + 1 : ℕ) : ℚ) < 1 := by
        push_cast
        linarith [Nat.cast_nonneg (α := ℚ) kk2]
      rw [List.replicate_succ]
      simp only [memRunSingle]
      rw [memAllowSingle_same_time cap rate ttl _ t httl, if_neg hge]
      dsimp only
      have hcast : ((kk2 + 1 : ℕ) : ℚ) - 1 = ((kk2 : ℕ) : ℚ) := by push_cast; ring
      rw [hcast, ih kk2]
      have hmin : min (m + 1) (kk2 + 1) = min m kk2 + 1 := by omega
      have hsub : m + 1 - (kk2 + 1) = m - kk2 := by omega
      rw [hmin, hsub]
      simp [List.replicate_succ]

/-- C7: (i) from a fresh key, `capacity` same-instant `allow` calls are
all admitted and call `capacity + 1` is denied; (ii) a bucket whose
`last_refill` lies at least a full window in the past (and whose entry is
not ttl-stale) refills to capacity, so the call is admitted and leaves
`capacity - 1` tokens; (iii) the spec's concrete scenario: capacity 4,
window 10 s — four admissions at `t = 0`, the fifth denied, exactly two
more admissions at `t = 5`, then denied. -/
theorem token_bucket_burst_refill :
    (∀ (C : ℕ) (W ttl t : ℚ) (key : String), 1 ≤ C → 0 ≤ ttl →
      (runCalls (InMemoryTokenBucket.init (C : ℚ) W ttl) key
          (List.replicate (C + 1) t)).1 =
        List.replicate C true ++ [false]) ∧
    (∀ (L : InMemoryTokenBucket) (W now : ℚ) (key : String) (b : TBBucket),
      dictGet L.buckets key = some b → L.refillRate = L.capacity / W → 0 < W →
      W ≤ now - b.lastRefill → ¬ L.entryTtl < now - b.lastAccess →
      0 ≤ b.tokens → 1 ≤ L.capacity →
      L.allow now key =
        (true, InMemoryTokenBucket.mk L.capacity L.refillRate L.entryTtl
          (dictSet L.buckets key (⟨L.capacity - 1, now, now⟩ : TBBucket)))) ∧
    (runCalls (InMemoryTokenBucket.init 4 10 3600) "k" [0, 0, 0, 0, 0, 5, 5, 5]).1 =
      [true, true, true, true, false, true, true, false] := by
  refine ⟨?_, ?_, ?_⟩
  · intro C W ttl t key hC httl
    rw [runCalls_decisions_single]
    have hinit : dictGet (InMemoryTokenBucket.init (C : ℚ) W ttl).buckets key = none := rfl
    rw [hinit]
    have hrep : List.replicate (C + 1) t = t :: List.replicate C t := rfl
    rw [hrep]
    have hfresh : memAllowSingle (C : ℚ) ((C : ℚ) / W) ttl none t =
        (true, ⟨(C : ℚ) - 1, t, t⟩) := rfl
    simp only [memRunSingle, InMemoryTokenBucket.init, hfresh]
    have hcast : ((C : ℚ)) - 1 = ((C - 1 : ℕ) : ℚ) := by
      push_cast [hC]
      ring
    rw [hcast, memRunSingle_replicate _ _ _ _ httl C (C - 1)]
    have hmin : min C (C - 1) = C - 1 := by omega
    have hsub : C - (C - 1) = 1 := by omega
    rw [hmin, hsub]
    obtain ⟨C2, rfl⟩ : ∃ C2, C = C2 + 1 := ⟨C - 1, by omega⟩
    simp [List.replicate_succ]
  · intro L W now key b hget hrate hW hwin httl htok hcap
    have hrpos : 0 < L.capacity / W := div_pos (by linarith) hW
    have hdelta : (0 : ℚ) < now - b.lastRefill := by linarith
    have hrefill : L.capacity ≤ b.tokens + (now - b.lastRefill) * L.refillRate := by
      rw [hrate]
      have h1 : W * (L.capacity / W) ≤ (now - b.lastRefill) * (L.capacity / W) :=
        mul_le_mul_of_nonneg_right hwin (le_of_lt hrpos)
      have h2 : W * (L.capacity / W) = L.capacity := by
        field_simp
      linarith
    have hmin : min L.capacity (b.tokens + (now - b.lastRefill) * L.refillRate) =
        L.capacity := min_eq_left hrefill
    have hnotlt : ¬ L.capacity < 1 := by linarith
    simp only [InMemoryTokenBucket.allow, memAllowSingle, hget, httl, if_false,
      hdelta, if_true, hmin, hnotlt]
  · rw [runCalls_decisions_single]
    norm_num [memRunSingle, memAllowSingle, InMemoryTokenBucket.init, dictGet]

/-- Witness for `token_bucket_burst_refill` at capacity 4, window 10,
ttl 3600: parts (i) and (ii) instantiated concretely (part (iii) is
already closed). -/
theorem token_bucket_burst_refill_witness :
    (runCalls (InMemoryTokenBucket.init ((4 : ℕ) : ℚ) 10 3600) "k"
        (List.replicate 5 0)).1 = List.replicate 4 true ++ [false] ∧
    (InMemoryTokenBucket.mk 4 (4 / 10) 3600 [("k", ⟨0, 0, 0⟩)]).allow 10 "k" =
      (true, InMemoryTokenBucket.mk 4 (4 / 10) 3600
        (dictSet [("k", (⟨0, 0, 0⟩ : TBBucket))] "k" (⟨4 - 1, 10, 10⟩ : TBBucket))) := by
  constructor
  · exact token_bucket_burst_refill.1 4 10 3600 0 "k" (by decide) (by norm_num)
  · exact token_bucket_burst_refill.2.1
      (InMemoryTokenBucket.mk 4 (4 / 10) 3600 [("k", ⟨0, 0, 0⟩)]) 10 10 "k"
      ⟨0, 0, 0⟩ (by simp [dictGet]) (by norm_num) (by norm_num) (by norm_num)
      (by norm_num) (by norm_num) (by norm_num)

/-! ## Claim C8 — in-process vs Redis/Lua backend -/

theorem redis_ttl_eq (c w : ℕ) (hc : 0 < c) (hw : 0 < w) :
    ((⌈((c : ℚ)) / ((c : ℚ) / ((w : ℚ) * 1000))⌉ : ℤ) : ℚ) = (w : ℚ) * 1000 := by
  have hc0 : ((c : ℚ)) ≠ 0 := Nat.cast_ne_zero.mpr hc.ne'
  have hw0 : ((w : ℚ)) ≠ 0 := Nat.cast_ne_zero.mpr hw.ne'
  have h1 : ((c : ℚ)) / ((c : ℚ) / ((w : ℚ) * 1000)) = (w : ℚ) * 1000 := by
    field_simp
  rw [h1]
  have h2 : ((w : ℚ)) * 1000 = (((w * 1000 : ℕ) : ℚ)) := by push_cast; ring
  rw [h2, Int.ceil_natCast]
  push_cast
  ring

theorem mem_step_reset {cap rate ttl : ℚ} {b : TBBucket} {now : ℚ}
    (h : ttl < now - b.lastAccess) :
    memAllowSingle cap rate ttl (some b) now = (true, ⟨cap - 1, now, now⟩) := by
  simp [memAllowSingle, h]

theorem mem_step_refill {cap rate ttl : ℚ} {b : TBBucket} {now : ℚ}
    (h : ¬ ttl < now - b.lastAccess) (hd : 0 < now - b.lastRefill) :
    memAllowSingle cap rate ttl (some b) now =
      if min cap (b.tokens + (now - b.lastRefill) * rate) < 1 then
        (false, ⟨min cap (b.tokens + (now - b.lastRefill) * rate), now, b.lastAccess⟩)
      else
        (true, ⟨min cap (b.tokens + (now - b.lastRefill) * rate) - 1, now, now⟩) := by
  simp [memAllowSingle, h, hd]

theorem mem_step_still {cap rate ttl : ℚ} {b : TBBucket} {now : ℚ}
    (h : ¬ ttl < now - b.lastAccess) (hd : ¬ (0 : ℚ) < now - b.lastRefill) :
    memAllowSingle cap rate ttl (some b) now =
      if b.tokens < 1 then (false, b)
      else (true, ⟨b.tokens - 1, b.lastRefill, now⟩) := by
  simp [memAllowSingle, h, hd]

theorem redis_step_expired {cap wnd : ℚ} {rs : RedisKeyState} {τ now : ℚ}
    (hrr : rs.bucket.lastRefill = 1000 * τ)
    (hex : rs.expireAtMs = 1000 * τ + 1000 * wnd)
    (hceil : ((⌈cap / (cap / (wnd * 1000))⌉ : ℤ) : ℚ) = wnd * 1000)
    (hcap : 1 ≤ cap) (hlt : wnd < now - τ) :
    redisAllowTokens cap wnd 1 (some rs) (1000 * now) =
      (true, ⟨⟨cap - 1, 1000 * now⟩, 1000 * now + 1000 * wnd⟩) := by
  have hdead : rs.expireAtMs < 1000 * now := by rw [hex]; linarith
  have hone : decide ((1 : ℚ) ≤ cap) = true := decide_eq_true hcap
  simp only [redisAllowTokens, hdead, if_pos, hceil, hone, if_true]
  rw [show wnd * 1000 = 1000 * wnd from by ring]

theorem redis_step_live {cap wnd : ℚ} {rs : RedisKeyState} {τ now : ℚ}
    (hrr : rs.bucket.lastRefill = 1000 * τ)
    (hex : rs.expireAtMs = 1000 * τ + 1000 * wnd)
    (hceil : ((⌈cap / (cap / (wnd * 1000))⌉ : ℤ) : ℚ) = wnd * 1000)
    (hwnd : 0 < wnd) (hge : ¬ wnd < now - τ) :
    redisAllowTokens cap wnd 1 (some rs) (1000 * now) =
      (decide ((1 : ℚ) ≤ min cap (rs.bucket.tokens + (now - τ) * (cap / wnd))),
        ⟨⟨(if (1 : ℚ) ≤ min cap (rs.bucket.tokens + (now - τ) * (cap / wnd)) then
            min cap (rs.bucket.tokens + (now - τ) * (cap / wnd)) - 1
          else min cap (rs.bucket.tokens + (now - τ) * (cap / wnd))), 1000 * now⟩,
          1000 * now + 1000 * wnd⟩) := by
  have halive : ¬ rs.expireAtMs < 1000 * now := by rw [hex]; intro hcon; apply hge; linarith
  have harith : (1000 * now - rs.bucket.lastRefill) * (cap / (wnd * 1000)) =
      (now - τ) * (cap / wnd) := by
    rw [hrr]
    have hw0 : wnd ≠ 0 := hwnd.ne'
    field_simp
    ring
  simp only [redisAllowTokens, halive, if_neg, if_false, harith, hceil,
    decide_eq_true_eq]
  rw [show wnd * 1000 = 1000 * wnd from by ring]

theorem tbInv_mk (cap wnd : ℚ) (tk lr la rtk rlr rex τ : ℚ)
    (h1 : lr = τ) (h2 : rlr = 1000 * τ) (h3 : rex = 1000 * τ + 1000 * wnd)
    (h4 : rtk = tk) (h5 : 0 ≤ tk) (h6 : tk ≤ cap) (h7 : la ≤ τ)
    (h8 : (τ - la) * (cap / wnd) ≤ tk) :
    TBInv cap wnd ⟨tk, lr, la⟩ ⟨⟨rtk, rlr⟩, rex⟩ τ :=
  ⟨h1, h2, h3, h4, h5, h6, h7, h8⟩

theorem tb_step_equiv (cap wnd ttl : ℚ) (hcap : 1 ≤ cap) (hwnd : 0 < wnd)
    (httl : wnd ≤ ttl)
    (hceil : ((⌈cap / (cap / (wnd * 1000))⌉ : ℤ) : ℚ) = wnd * 1000)
    (b : TBBucket) (rs : RedisKeyState) (τ now : ℚ)
    (hInv : TBInv cap wnd b rs τ) (hτ : τ ≤ now) :
    (memAllowSingle cap (cap / wnd) ttl (some b) now).1 =
      (redisAllowTokens cap wnd 1 (some rs) (1000 * now)).1 ∧
    TBInv cap wnd (memAllowSingle cap (cap / wnd) ttl (some b) now).2
      (redisAllowTokens cap wnd 1 (some rs) (1000 * now)).2 now := by
  obtain ⟨hbr, hrr, hex, htok, h0, hcapb, hla, hrt⟩ := hInv
  have hcap0 : (0 : ℚ) < cap := lt_of_lt_of_le one_pos hcap
  have hrpos : (0 : ℚ) < cap / wnd := div_pos hcap0 hwnd
  have hwc : wnd * (cap / wnd) = cap := by field_simp
  have hzero : ∀ x : ℚ, (x - x) * (cap / wnd) = 0 := by intro x; ring
  by_cases hexp : wnd < now - τ
  · -- Redis key expired; both sides end up at full capacity and admit.
    rw [redis_step_expired hrr hex hceil hcap hexp]
    have hmem : memAllowSingle cap (cap / wnd) ttl (some b) now =
        (true, ⟨cap - 1, now, now⟩) := by
      by_cases hstale : ttl < now - b.lastAccess
      · exact mem_step_reset hstale
      · have hd : (0 : ℚ) < now - b.lastRefill := by rw [hbr]; linarith
        rw [mem_step_refill hstale hd]
        have h1 : wnd * (cap / wnd) ≤ (now - b.lastRefill) * (cap / wnd) := by
          refine mul_le_mul_of_nonneg_right ?_ (le_of_lt hrpos)
          rw [hbr]
          linarith
        have hbig : cap ≤ b.tokens + (now - b.lastRefill) * (cap / wnd) := by
          linarith
        rw [min_eq_left hbig, if_neg (by linarith : ¬ cap < 1)]
    rw [hmem]
    exact ⟨rfl, tbInv_mk cap wnd (cap - 1) now now (cap - 1) (1000 * now)
      (1000 * now + 1000 * wnd) now rfl rfl rfl rfl (by linarith) (by linarith)
      (le_refl now) (by rw [hzero]; linarith)⟩
  · -- Redis key alive.
    rw [redis_step_live hrr hex hceil hwnd hexp, htok]
    have hTnn : (0 : ℚ) ≤ now - τ := by linarith
    have hmul : (0 : ℚ) ≤ (now - τ) * (cap / wnd) :=
      mul_nonneg hTnn (le_of_lt hrpos)
    by_cases hstale : ttl < now - b.lastAccess
    · -- stale entry: the in-memory reset and the Redis refill agree at
      -- capacity, because the accumulated refill already covers it.
      have hsplit : (τ - b.lastAccess) * (cap / wnd) + (now - τ) * (cap / wnd) =
          (now - b.lastAccess) * (cap / wnd) := by ring
      have h2 : ttl * (cap / wnd) < (now - b.lastAccess) * (cap / wnd) :=
        mul_lt_mul_of_pos_right hstale hrpos
      have h3 : wnd * (cap / wnd) ≤ ttl * (cap / wnd) :=
        mul_le_mul_of_nonneg_right httl (le_of_lt hrpos)
      have h4 : cap ≤ b.tokens + (now - τ) * (cap / wnd) := by linarith
      rw [mem_step_reset hstale, min_eq_left h4, if_pos hcap]
      exact ⟨(decide_eq_true hcap).symm,
        tbInv_mk cap wnd (cap - 1) now now (cap - 1) (1000 * now)
          (1000 * now + 1000 * wnd) now rfl rfl rfl rfl (by linarith) (by linarith)
          (le_refl now) (by rw [hzero]; linarith)⟩
    · by_cases hd : (0 : ℚ) < now - b.lastRefill
      · -- both sides refill by the same amount
        rw [mem_step_refill hstale hd, hbr]
        have hXc : min cap (b.tokens + (now - τ) * (cap / wnd)) ≤ cap :=
          min_le_left cap (b.tokens + (now - τ) * (cap / wnd))
        by_cases hadm : (1 : ℚ) ≤ min cap (b.tokens + (now - τ) * (cap / wnd))
        · rw [if_neg (by linarith : ¬ min cap (b.tokens + (now - τ) * (cap / wnd)) < 1),
            if_pos hadm]
          exact ⟨(decide_eq_true hadm).symm,
            tbInv_mk cap wnd (min cap (b.tokens + (now - τ) * (cap / wnd)) - 1) now now
              (min cap (b.tokens + (now - τ) * (cap / wnd)) - 1) (1000 * now)
              (1000 * now + 1000 * wnd) now rfl rfl rfl rfl (by linarith) (by linarith)
              (le_refl now) (by rw [hzero]; linarith)⟩
        · rw [if_pos (by linarith : min cap (b.tokens + (now - τ) * (cap / wnd)) < 1),
            if_neg hadm]
          have hXv : min cap (b.tokens + (now - τ) * (cap / wnd)) =
              b.tokens + (now - τ) * (cap / wnd) := by
            rcases le_total cap (b.tokens + (now - τ) * (cap / wnd)) with hle | hle
            · refine absurd ?_ hadm
              rw [min_eq_left hle]
              exact hcap
            · exact min_eq_right hle
          have hacc : (now - b.lastAccess) * (cap / wnd) =
              (τ - b.lastAccess) * (cap / wnd) + (now - τ) * (cap / wnd) := by ring
          exact ⟨(decide_eq_false hadm).symm,
            tbInv_mk cap wnd (min cap (b.tokens + (now - τ) * (cap / wnd))) now
              b.lastAccess (min cap (b.tokens + (now - τ) * (cap / wnd))) (1000 * now)
              (1000 * now + 1000 * wnd) now rfl rfl rfl rfl
              (by rw [hXv]; linarith) hXc (by linarith)
              (by rw [hXv, hacc]; linarith)⟩
      · -- no time has passed: both sides act on the stored token count
        have hnowτ : now = τ := by
          have h1 : now - b.lastRefill ≤ 0 := not_lt.mp hd
          rw [hbr] at h1
          linarith
        have hX0 : min cap (b.tokens + (now - τ) * (cap / wnd)) = b.tokens := by
          rw [hnowτ, show (τ - τ) * (cap / wnd) = 0 from by ring, add_zero]
          exact min_eq_right hcapb
        rw [mem_step_still hstale hd, hX0]
        by_cases hadm : (1 : ℚ) ≤ b.tokens
        · rw [if_neg (by linarith : ¬ b.tokens < 1), if_pos hadm]
          exact ⟨(decide_eq_true hadm).symm,
            tbInv_mk cap wnd (b.tokens - 1) b.lastRefill now (b.tokens - 1)
              (1000 * now) (1000 * now + 1000 * wnd) now
              (by rw [hbr]; exact hnowτ.symm) rfl rfl rfl (by linarith) (by linarith)
              (le_refl now) (by rw [hzero]; linarith)⟩
        · rw [if_pos (by linarith : b.tokens < 1), if_neg hadm]
          exact ⟨(decide_eq_false hadm).symm,
            tbInv_mk cap wnd b.tokens b.lastRefill b.lastAccess b.tokens
              (1000 * now) (1000 * now + 1000 * wnd) now
              (by rw [hbr]; exact hnowτ.symm) rfl rfl rfl h0 hcapb
              (by rw [hnowτ]; exact hla) (by rw [hnowτ]; exact hrt)⟩

theorem redis_step_fresh (cap wnd : ℚ) (hcap : 1 ≤ cap)
    (hceil : ((⌈cap / (cap / (wnd * 1000))⌉ : ℤ) : ℚ) = wnd * 1000) (nowMs : ℚ) :
    redisAllowTokens cap wnd 1 none nowMs =
      (true, ⟨⟨cap - 1, nowMs⟩, nowMs + 1000 * wnd⟩) := by
  have hone : decide ((1 : ℚ) ≤ cap) = true := decide_eq_true hcap
  simp only [redisAllowTokens, hone, if_true, hceil]
  rw [show wnd * 1000 = 1000 * wnd from by ring]

theorem tb_run_equiv_some (cap wnd ttl : ℚ) (hcap : 1 ≤ cap) (hwnd : 0 < wnd)
    (httl : wnd ≤ ttl)
    (hceil : ((⌈cap / (cap / (wnd * 1000))⌉ : ℤ) : ℚ) = wnd * 1000) :
    ∀ (ts : List ℚ) (b : TBBucket) (rs : RedisKeyState) (τ : ℚ),
      TBInv cap wnd b rs τ → List.Chain (· ≤ ·) τ ts →
      memRunSingle cap (cap / wnd) ttl (some b) ts = redisRun cap wnd (some rs) ts := by
  intro ts
  induction ts with
  | nil => intro b rs τ _ _; rfl
  | cons t ts2 ih =>
    intro b rs τ hInv hch
    rw [List.chain_cons] at hch
    obtain ⟨hτt, hch2⟩ := hch
    obtain ⟨hdec, hInv2⟩ :=
      tb_step_equiv cap wnd ttl hcap hwnd httl hceil b rs τ t hInv hτt
    simp only [memRunSingle, redisRun]
    exact congrArg₂ List.cons hdec (ih _ _ t hInv2 hch2)

/-- C8 (amended): both backends expose `allow(key) → bool`
(`allow_tokens(key, n)` exists only on the Redis backend), and whenever
`capacity ≥ 1`, `window_seconds > 0` and
`window_seconds ≤ entry_ttl_seconds`, the two backends return identical
admission decisions on every nondecreasing sequence of call instants for
one key. -/
theorem rate_limiter_backend_equivalence :
    ∀ (c w ttl : ℕ) (key : String) (ts : List ℚ),
      1 ≤ c → 0 < w → w ≤ ttl → ts.Chain' (· ≤ ·) →
      (runCalls (InMemoryTokenBucket.init (c : ℚ) (w : ℚ) (ttl : ℚ)) key ts).1 =
        redisRun (c : ℚ) (w : ℚ) none ts := by
  intro c w ttl key ts hc hw hwt hch
  rw [runCalls_decisions_single]
  have hcap : (1 : ℚ) ≤ (c : ℚ) := by exact_mod_cast hc
  have hwnd : (0 : ℚ) < (w : ℚ) := by exact_mod_cast hw
  have httl : ((w : ℕ) : ℚ) ≤ ((ttl : ℕ) : ℚ) := by exact_mod_cast hwt
  have hceil := redis_ttl_eq c w (by omega) hw
  cases ts with
  | nil => rfl
  | cons t ts2 =>
    have hch2 : List.Chain (· ≤ ·) t ts2 := hch
    dsimp only [InMemoryTokenBucket.init]
    simp only [memRunSingle, redisRun, dictGet]
    rw [redis_step_fresh (c : ℚ) (w : ℚ) hcap hceil (1000 * t)]
    have hfresh : memAllowSingle (c : ℚ) ((c : ℚ) / (w : ℚ)) (ttl : ℚ) none t =
        (true, ⟨(c : ℚ) - 1, t, t⟩) := rfl
    rw [hfresh]
    refine congrArg₂ List.cons rfl ?_
    refine tb_run_equiv_some (c : ℚ) (w : ℚ) (ttl : ℚ) hcap hwnd httl hceil ts2
      ⟨(c : ℚ) - 1, t, t⟩ ⟨⟨(c : ℚ) - 1, 1000 * t⟩, 1000 * t + 1000 * (w : ℚ)⟩ t
      ?_ hch2
    exact tbInv_mk (c : ℚ) (w : ℚ) ((c : ℚ) - 1) t t ((c : ℚ) - 1) (1000 * t)
      (1000 * t + 1000 * (w : ℚ)) t rfl rfl rfl rfl (by linarith) (by linarith)
      (le_refl t)
      (by rw [show (t - t) * ((c : ℚ) / (w : ℚ)) = 0 from by ring]; linarith)

/-- C8 (counterexample): with capacity 1, window 7200 s and the default
`entry_ttl_seconds = 3600`, two calls at `t = 0` and `t = 5000` are both
admitted by the in-process backend (the 3600 s idle reset refills the
bucket) while the Redis backend denies the second call (the Lua script
only refills `5000/7200` of a token and its key, expiring after one full
window, is still alive). -/
theorem rate_limiter_backend_divergence_cex :
    (runCalls (InMemoryTokenBucket.init 1 7200 3600) "k" [0, 5000]).1 =
      [true, true] ∧
    redisRun 1 7200 none [0, 5000] = [true, false] := by
  constructor
  · norm_num [runCalls, InMemoryTokenBucket.allow, InMemoryTokenBucket.init,
      memAllowSingle, dictGet, dictSet, List.filter]
  · norm_num [redisRun, redisAllowTokens]

/-- Witness for `rate_limiter_backend_equivalence` at capacity 4, window
10 s, ttl 3600 s, with the spec's concrete call schedule. -/
theorem rate_limiter_backend_equivalence_witness :
    (runCalls (InMemoryTokenBucket.init ((4 : ℕ) : ℚ) ((10 : ℕ) : ℚ) ((3600 : ℕ) : ℚ))
        "k" [0, 0, 0, 0, 0, 5, 5, 5]).1 =
      redisRun ((4 : ℕ) : ℚ) ((10 : ℕ) : ℚ) none [0, 0, 0, 0, 0, 5, 5, 5] :=
  rate_limiter_backend_equivalence 4 10 3600 "k" [0, 0, 0, 0, 0, 5, 5, 5]
    (by decide) (by decide) (by decide)
    (by norm_num [List.chain'_cons, List.chain'_singleton])

end AnalyticsMcp
